import Mathlib

/-!
Verification development for the child process of the fdm mail agent
(src/child.c).  The definitions below are a shallow embedding of the C
source: the rule engine (do_rules), the expression evaluator (do_expr),
the delivery dispatcher (do_deliver / do_action), and the fetch-loop
driver (fetch_account / fetch_got).  External collaborators that live in
other files of the repository (match primitives, find_users,
match_actions, replacestr, update_tags, trim_from, fill_wrapped, header
helpers, the privileged parent process and the fetch backend) are
modelled as fields of an environment record, so every theorem holds for
all behaviours of those collaborators unless it constrains them
explicitly.
-/

namespace Fdm

/-- Result of a match primitive: MATCH_TRUE / MATCH_FALSE / MATCH_ERROR
in match.h. -/
inductive MatchResult where
  | mtrue
  | mfalse
  | merror
deriving DecidableEq, Repr

/-- Combination operator of an expression item: OP_NONE / OP_OR / OP_AND. -/
inductive Op where
  | opNone
  | opOr
  | opAnd
deriving DecidableEq, Repr

/-- Mail decision: DECISION_NONE / DECISION_KEEP / DECISION_DROP.
conf.impl_act uses all three; a mail decision is initialised to drop by
fetch_account and only ever set to keep or drop afterwards. -/
inductive Decision where
  | dnone
  | keep
  | drop
deriving DecidableEq, Repr

/-- Stage label written into the cause pointer on a per-account abort. -/
inductive Cause where
  | fetching
  | matching
  | delivery
  | deleting
  | keeping
  | purging
deriving DecidableEq, Repr

/-- Privsep message kind, restricted to what do_action distinguishes:
the expected MSG_DONE versus anything else (which is fatal). -/
inductive MsgType where
  | done
  | other
deriving DecidableEq, Repr

/-- Delivery type of an action: DELIVER_INCHILD, DELIVER_WRBACK, or any
other out-of-process kind (DELIVER_ASUSER). -/
inductive DType where
  | inchild
  | wrback
  | other
deriving DecidableEq, Repr

/-- Tag set of a mail: a mapping tag-name to tag-value with unique keys. -/
def Tags := List (String × String)
deriving DecidableEq, Repr

/-- Modelled from the spec: add_tag (xmalloc-util helpers, not in src/)
adds or overwrites one tag; keys are unique. -/
def add_tag (k v : String) (ts : Tags) : Tags :=
  (k, v) :: (ts.filter (fun p => p.1 ≠ k))

/-- In-memory mail.  The byte content is not modelled; the fields below
are the ones src/child.c reads or writes: length, body offset, decision,
tag set, and the character currently standing at the wrapped-line
positions (the spec: wrapped header lines are joined with a space for
matching and restored to newline form). -/
structure Mail where
  size : Nat
  body : Int
  decision : Decision
  tags : Tags
  wrap : Char
deriving DecidableEq, Repr

/-- Modelled from the spec: set_wrapped (mail helpers, not in src/)
writes the given character at every wrapped-line position of the mail. -/
def set_wrapped (m : Mail) (c : Char) : Mail :=
  { m with wrap := c }

/-- One expression item: a match primitive (modelled as its result as a
function of the mail it inspects), the inverted flag, and the
combination operator relative to the previous item. -/
structure ExprItem where
  matchf : Mail → MatchResult
  inverted : Bool
  op : Op

/-- Rule kind: RULE_ALL or RULE_EXPRESSION with its expression items. -/
inductive RuleType where
  | all
  | expr (items : List ExprItem)

/-- Scalar fields of a rule (everything except the nested child rules). -/
structure RuleBase where
  accounts : List String
  rtype : RuleType
  tag : Option (String × Option String)
  actions : Option (List String)
  stop : Bool
  find_uid : Bool
  users : Option (List Nat)

/-- A rule: its scalar fields plus the ordered nested child rules. -/
inductive Rule where
  | mk (base : RuleBase) (children : List Rule)

/-- Account: name, always-keep flag, and its user-resolution settings. -/
structure Account where
  name : String
  keep : Bool
  find_uid : Bool
  users : Option (List Nat)
deriving DecidableEq, Repr

/-- Action: name, whether a deliverer is configured, its delivery type,
and its user-resolution settings. -/
structure Action where
  name : String
  hasDeliver : Bool
  dtype : DType
  find_uid : Bool
  users : Option (List Nat)
deriving DecidableEq, Repr

/-- Request sent to the privileged parent for one delivery round-trip:
the action, the uid to run as, and the mail (size, body offset, tags). -/
structure Request where
  actionName : String
  uid : Nat
  size : Nat
  body : Int
  tags : Tags
deriving DecidableEq, Repr

/-- Completion reply from the privileged parent: message kind, error
code, mirrored (for write-back: replacement) size and body offset, and
the returned tag buffer (none models a NULL or empty buffer). -/
structure Reply where
  rtype : MsgType
  error : Nat
  size : Nat
  body : Int
  tagsBuf : Option Tags
deriving DecidableEq, Repr

/-- Configuration fields of struct conf that src/child.c consults. -/
structure Conf where
  impl_act : Decision
  keep_all : Bool
  del_big : Bool
  no_received : Bool
  purge_after : Nat
  def_user : Nat
  rules : List Rule

/-- Environment: the configuration plus every external collaborator the
child calls, modelled as abstract functions (they live outside
src/child.c). -/
structure Env where
  conf : Conf
  /-- find_users: derive the uid list from the mail; none models NULL. -/
  find_users : Mail → Option (List Nat)
  /-- the privileged parent: completion reply for a delivery request. -/
  parent : Request → Reply
  /-- result of an in-child deliverer invocation. -/
  inchild : Mail → Action → Bool
  /-- update_tags: re-registers standard tags after the tag buffer is
  replaced by the one from a reply. -/
  update_tags : Tags → Tags
  /-- match_actions: the configured actions whose name matches the
  expanded action-name string. -/
  match_actions : String → List Action
  /-- replacestr: expand a template against the current tag set. -/
  replacestr : String → Tags → String
  /-- trim_from: strip a leading mbox From line. -/
  trim_from : Mail → Mail
  /-- fill_wrapped: recompute the wrapped-line index of the mail. -/
  fill_wrapped : Mail → Mail
  /-- find_header result for message-id (none: header absent). -/
  message_id : Mail → Option String
  /-- insertion of the Received header (rfc822_time plus insert_header). -/
  insert_received : Mail → Mail
  /-- whether the fetch backend has a done hook. -/
  hasDone : Bool
  /-- result of the done hook for a given decision (true = success). -/
  doneResult : Decision → Bool
  /-- whether the fetch backend has a purge hook. -/
  hasPurge : Bool
  /-- result of the purge hook (true = success). -/
  purgeOk : Bool

/-- Modelled from the spec: name_match (fnmatch wrapper, not in src/)
does shell-glob-style name matching of a pattern against a string. -/
def glob_match : List Char → List Char → Bool
  | [], s => s.isEmpty
  | '*' :: ps, s => (s.tails.map (glob_match ps)).any id
  | '?' :: ps, s =>
    match s with
    | [] => false
    | _ :: cs => glob_match ps cs
  | p :: ps, s =>
    match s with
    | [] => false
    | c :: cs => p == c && glob_match ps cs

/-- Shell-glob name matching on strings, as used for rule account
filters. -/
def name_match (pat s : String) : Bool :=
  glob_match pat.toList s.toList

/-- The result a single expression item contributes: none on
MATCH_ERROR, otherwise the primitive result with the inverted flag
applied. -/
def item_result (m : Mail) (ei : ExprItem) : Option Bool :=
  match ei.matchf m with
  | MatchResult.merror => none
  | r =>
    let c := r == MatchResult.mtrue
    some (if ei.inverted then !c else c)

/-- Loop body of do_expr: fres is the accumulator; returns none where
the C function returns -1 (a primitive reported MATCH_ERROR). -/
def do_expr_go (m : Mail) (fres : Bool) : List ExprItem → Option Bool
  | [] => some fres
  | ei :: rest =>
    match item_result m ei with
    | none => none
    | some cres =>
      let fres' :=
        match ei.op with
        | Op.opNone | Op.opOr => fres || cres
        | Op.opAnd => fres && cres
      do_expr_go m fres' rest

/-- do_expr from src/child.c: fold the expression items left to right
starting from accumulator 0 (false). -/
def do_expr (m : Mail) (l : List ExprItem) : Option Bool :=
  do_expr_go m false l

/-- Modelled from the spec for claim C1: fold the tail of an expression
left to right, combining with OR or AND as each item states; an item
whose stated operator is None has no meaning after the first position
and leaves the accumulator unchanged here (the theorem excludes it). -/
def fold_rest_spec (m : Mail) (acc : Bool) : List ExprItem → Option Bool
  | [] => some acc
  | ei :: rest =>
    match item_result m ei with
    | none => none
    | some cres =>
      let acc' :=
        match ei.op with
        | Op.opOr => acc || cres
        | Op.opAnd => acc && cres
        | Op.opNone => acc
      fold_rest_spec m acc' rest

/-- Modelled from the spec for claim C1: the evaluation of a non-empty
expression list is seeded by the first item's (possibly inverted)
primitive result, the first operator being ignored, then folded left to
right; any primitive error aborts the evaluation. -/
def expr_fold_spec (m : Mail) : List ExprItem → Option Bool
  | [] => none
  | ei :: rest =>
    match item_result m ei with
    | none => none
    | some seed => fold_rest_spec m seed rest

/-- User-identity resolution of do_action (src/child.c lines 592-619):
the first branch of the if chain whose condition holds provides the
list; a NULL result (no branch taken, or find_users finding nothing)
falls back to the single configured default user. -/
def resolve_users (env : Env) (rb : RuleBase) (t : Action) (a : Account)
    (m : Mail) : List Nat :=
  let users : Option (List Nat) :=
    if rb.find_uid then env.find_users m
    else if rb.users.isSome then rb.users
    else if t.find_uid then env.find_users m
    else if t.users.isSome then t.users
    else if a.find_uid then env.find_users m
    else if a.users.isSome then a.users
    else none
  users.getD [env.conf.def_user]

/-- Modelled from the spec for claim C5: the ordered provider list,
rule-level derive-flag first, account-level explicit list last.  A
provider is applicable when its flag is set or its list is present. -/
def user_providers (env : Env) (rb : RuleBase) (t : Action) (a : Account)
    (m : Mail) : List (Option (Option (List Nat))) :=
  [ if rb.find_uid then some (env.find_users m) else none,
    if rb.users.isSome then some rb.users else none,
    if t.find_uid then some (env.find_users m) else none,
    if t.users.isSome then some t.users else none,
    if a.find_uid then some (env.find_users m) else none,
    if a.users.isSome then some a.users else none ]

/-- Modelled from the spec for claim C5: the first applicable provider
wins; if it yields nothing, or no provider applies, the list is the
single configured default identity. -/
def resolve_users_spec (env : Env) (rb : RuleBase) (t : Action)
    (a : Account) (m : Mail) : List Nat :=
  match (user_providers env rb t a m).findSome? id with
  | some (some us) => us
  | _ => [env.conf.def_user]

/-- Outcome of do_action: success or failure (the C return values 0 and
1) with the mail as the function leaves it, or abnormal process
termination (fatalx). -/
inductive ARes where
  | ok (m : Mail)
  | fail (m : Mail)
  | fatal
deriving DecidableEq, Repr

/-- Per-user delivery loop of do_action (src/child.c lines 621-668):
one privsep round-trip per user; the reply must be MSG_DONE and carry a
tag buffer, the tag set is replaced by the returned one, a nonzero
error code fails the action, a non-write-back reply must mirror size
and body offset exactly, and a write-back reply replaces the mail. -/
def action_loop (env : Env) (t : Action) : List Nat → Mail → ARes
  | [], m => ARes.ok m
  | u :: us, m =>
    let reply := env.parent ⟨t.name, u, m.size, m.body, m.tags⟩
    if reply.rtype ≠ MsgType.done then ARes.fatal
    else
      match reply.tagsBuf with
      | none => ARes.fatal
      | some tb =>
        let m := { m with tags := env.update_tags tb }
        if reply.error ≠ 0 then ARes.fail m
        else if t.dtype ≠ DType.wrback then
          if m.size ≠ reply.size ∨ m.body ≠ reply.body then ARes.fatal
          else action_loop env t us m
        else
          let m := { m with size := reply.size, body := reply.body }
          let m := env.trim_from m
          let m := env.fill_wrapped m
          action_loop env t us m

/-- do_action from src/child.c: no-op without a deliverer, tag the mail
with the action name, deliver in-child directly, otherwise resolve the
user list and run one privsep round-trip per user. -/
def do_action (env : Env) (rb : RuleBase) (a : Account) (m : Mail)
    (t : Action) : ARes :=
  if !t.hasDeliver then ARes.ok m
  else
    let m := { m with tags := add_tag "action" t.name m.tags }
    if t.dtype = DType.inchild then
      if env.inchild m t then ARes.ok m else ARes.fail m
    else
      action_loop env t (resolve_users env rb t a m) m

/-- Outcome of do_deliver, mirroring ARes one level up. -/
inductive DRes where
  | ok (m : Mail)
  | fail (m : Mail)
  | fatal
deriving DecidableEq, Repr

/-- Inner loop of do_deliver over the actions matching one expanded
name: a failing do_action aborts the whole delivery. -/
def actions_loop (env : Env) (rb : RuleBase) (a : Account) :
    List Action → Mail → ARes
  | [], m => ARes.ok m
  | t :: ts, m =>
    match do_action env rb a m t with
    | ARes.ok m2 => actions_loop env rb a ts m2
    | ARes.fail m2 => ARes.fail m2
    | ARes.fatal => ARes.fatal

/-- Outer loop of do_deliver over the rule's action-name templates:
expand the template against the current tags, look up the matching
configured actions, fail if there are none, else run them all. -/
def deliver_loop (env : Env) (rb : RuleBase) (a : Account) :
    List String → Mail → DRes
  | [], m => DRes.ok m
  | rs :: rest, m =>
    let s := env.replacestr rs m.tags
    let ta := env.match_actions s
    if ta.isEmpty then DRes.fail m
    else
      match actions_loop env rb a ta m with
      | ARes.ok m2 => deliver_loop env rb a rest m2
      | ARes.fail m2 => DRes.fail m2
      | ARes.fatal => DRes.fatal

/-- do_deliver from src/child.c: a rule without actions is a no-op,
else the templates are processed in order. -/
def do_deliver (env : Env) (rb : RuleBase) (a : Account) (m : Mail) :
    DRes :=
  match rb.actions with
  | none => DRes.ok m
  | some ts => deliver_loop env rb a ts m

/-- Match context of the rule engine: the account, the mail, and the
matched / stopped traversal flags. -/
structure MCtx where
  account : Account
  mail : Mail
  matched : Bool
  stopped : Bool
deriving DecidableEq, Repr

/-- Outcome of do_rules: success (return 0) with the final context, an
abort (return 1) with its stage label and the context at that point, or
abnormal process termination propagated from a delivery. -/
inductive RRes where
  | ok (mctx : MCtx)
  | err (cause : Cause) (mctx : MCtx)
  | fatal
deriving DecidableEq, Repr

/-- Account-filter check of do_rules (src/child.c lines 391-402): a rule
with a non-empty account list is skipped when no pattern matches the
current account name. -/
def rule_skips (rb : RuleBase) (aname : String) : Bool :=
  !rb.accounts.isEmpty && rb.accounts.all (fun nm => !(name_match nm aname))

/-- Post-match processing of one rule (src/child.c lines 436-461):
materialize the tag templates and add the tag when the key expands
non-empty and the value template is present, then, if the rule has
actions, set the matched flag and run the delivery; a delivery failure
aborts with the delivery stage label. -/
def rule_post (env : Env) (mctx : MCtx) (rb : RuleBase) : RRes ⊕ MCtx :=
  let m := mctx.mail
  let m :=
    match rb.tag with
    | none => m
    | some (k, v) =>
      let tkey := env.replacestr k m.tags
      match v.map (fun vs => env.replacestr vs m.tags) with
      | some tv =>
        if tkey ≠ "" then { m with tags := add_tag tkey tv m.tags } else m
      | none => m
  let mctx := { mctx with mail := m }
  match rb.actions with
  | none => Sum.inr mctx
  | some _ =>
    let mctx := { mctx with matched := true }
    match do_deliver env rb mctx.account mctx.mail with
    | DRes.ok m2 => Sum.inr { mctx with mail := m2 }
    | DRes.fail m2 => Sum.inl (RRes.err Cause.delivery { mctx with mail := m2 })
    | DRes.fatal => Sum.inl RRes.fatal

/-- do_rules from src/child.c: walk one rule list in order.  Per rule:
skip it when the account filter excludes the current account; for an
expression rule join the wrapped lines with a space and evaluate (an
evaluator error aborts with the matching stage label, a false result
skips to the next rule); on a match reset the wrapped lines to newline
form, run the post-match processing, recurse into the nested child
rules (a nested stop ends this level), and finally a stop rule sets the
stopped flag and ends this level. -/
def do_rules (env : Env) : MCtx → List Rule → RRes
  | mctx, [] => RRes.ok mctx
  | mctx, Rule.mk rb children :: rest =>
    if rule_skips rb mctx.account.name then
      do_rules env mctx rest
    else
      let step : Option Bool × Mail :=
        match rb.rtype with
        | RuleType.all => (some true, mctx.mail)
        | RuleType.expr items =>
          let mJ := set_wrapped mctx.mail ' '
          (do_expr mJ items, mJ)
      match step with
      | (none, mN) => RRes.err Cause.matching { mctx with mail := mN }
      | (some false, mN) => do_rules env { mctx with mail := mN } rest
      | (some true, mN) =>
        let mctx1 := { mctx with mail := set_wrapped mN '\n' }
        match rule_post env mctx1 rb with
        | Sum.inl res => res
        | Sum.inr mctx2 =>
          if children.isEmpty then
            if rb.stop then RRes.ok { mctx2 with stopped := true }
            else do_rules env mctx2 rest
          else
            match do_rules env mctx2 children with
            | RRes.ok m4 =>
              if m4.stopped then RRes.ok m4
              else if rb.stop then RRes.ok { m4 with stopped := true }
              else do_rules env m4 rest
            | other => other
termination_by _ l => sizeOf l
decreasing_by all_goals (simp_wf <;> omega)

/-- Outcome of fetch_got: FETCH_ERROR with its stage label, FETCH_SUCCESS
with the mail carrying the final decision, or abnormal termination
propagated from a delivery. -/
inductive FGRes where
  | err (cause : Cause)
  | success (m : Mail)
  | fatal

/-- Pre-rule processing of fetch_got (src/child.c lines 311-346): tag
the message-id when the header is present and non-empty, insert the
Received header unless disabled, and fill the wrapped-line index. -/
def fetch_prep (env : Env) (m : Mail) : Mail :=
  let m :=
    match env.message_id m with
    | none => m
    | some hdr =>
      if hdr.length = 0 then m
      else { m with tags := add_tag "message_id" hdr m.tags }
  let m := if env.conf.no_received then m else env.insert_received m
  env.fill_wrapped m

/-- Implicit end-of-ruleset decision (src/child.c lines 356-372): the
None policy warns and keeps, Keep keeps, Drop drops. -/
def impl_decision : Decision → Decision
  | Decision.dnone => Decision.keep
  | Decision.keep => Decision.keep
  | Decision.drop => Decision.drop

/-- fetch_got from src/child.c: run the pre-rule processing, then the
rule engine over the configured rules; if no stop rule fired apply the
implicit end-of-ruleset policy, and finally the global keep-all option
or the per-account keep flag forces the decision to keep. -/
def fetch_got (env : Env) (a : Account) (m : Mail) : FGRes :=
  let m := fetch_prep env m
  match do_rules env ⟨a, m, false, false⟩ env.conf.rules with
  | RRes.err c _ => FGRes.err c
  | RRes.fatal => FGRes.fatal
  | RRes.ok mc =>
    let mm := mc.mail
    let mm :=
      if mc.stopped then mm
      else { mm with decision := impl_decision env.conf.impl_act }
    let mm :=
      if env.conf.keep_all || a.keep then { mm with decision := Decision.keep }
      else mm
    FGRes.success mm

/-- One iteration of the fetch backend as seen by fetch_account:
FETCH_ERROR, FETCH_OVERSIZE (with the partially filled mail),
FETCH_COMPLETE, or a fetched message. -/
inductive FetchEvent where
  | ferror
  | oversize (m : Mail)
  | complete
  | msg (m : Mail)

/-- Final report of a fetch_account run: the stage label of the abort
(none for a clean run) and the dropped / kept counters. -/
structure FetchSummary where
  cause : Option Cause
  dropped : Nat
  kept : Nat
deriving DecidableEq, Repr

/-- Outcome of fetch_account: the summary, or abnormal termination. -/
inductive FRes where
  | out (s : FetchSummary)
  | fatal
deriving DecidableEq, Repr

/-- Fetch loop of fetch_account (src/child.c lines 206-274), driven by
the list of backend events; n is the purge counter, dropped and kept
the decision counters.  Each fetched mail starts with decision drop; an
oversized mail aborts unless del_big is set, in which case it goes
straight to the completion step; an empty mail (after trimming the mbox
From line) is ignored; otherwise fetch_got runs the ruleset and the
completion step reports the decision to the done hook (counting it) and
the purge hook runs every purge_after messages. -/
def fetch_loop (env : Env) (a : Account) :
    List FetchEvent → Nat → Nat → Nat → FRes
  | [], _, dropped, kept => FRes.out ⟨none, dropped, kept⟩
  | ev :: evs, n, dropped, kept =>
    match ev with
    | FetchEvent.ferror => FRes.out ⟨some Cause.fetching, dropped, kept⟩
    | FetchEvent.complete => FRes.out ⟨none, dropped, kept⟩
    | FetchEvent.oversize m0 =>
      if env.conf.del_big then
        let m := { m0 with decision := Decision.drop }
        if env.hasDone then
          match m.decision with
          | Decision.drop =>
            if env.doneResult Decision.drop then
              if env.conf.purge_after > 0 && env.hasPurge then
                if n + 1 ≥ env.conf.purge_after then
                  if env.purgeOk then fetch_loop env a evs 0 (dropped + 1) kept
                  else FRes.out ⟨some Cause.purging, dropped + 1, kept⟩
                else fetch_loop env a evs (n + 1) (dropped + 1) kept
              else fetch_loop env a evs n (dropped + 1) kept
            else FRes.out ⟨some Cause.deleting, dropped + 1, kept⟩
          | Decision.keep =>
            if env.doneResult Decision.keep then
              if env.conf.purge_after > 0 && env.hasPurge then
                if n + 1 ≥ env.conf.purge_after then
                  if env.purgeOk then fetch_loop env a evs 0 dropped (kept + 1)
                  else FRes.out ⟨some Cause.purging, dropped, kept + 1⟩
                else fetch_loop env a evs (n + 1) dropped (kept + 1)
              else fetch_loop env a evs n dropped (kept + 1)
            else FRes.out ⟨some Cause.keeping, dropped, kept + 1⟩
          | Decision.dnone => FRes.fatal
        else
          if env.conf.purge_after > 0 && env.hasPurge then
            if n + 1 ≥ env.conf.purge_after then
              if env.purgeOk then fetch_loop env a evs 0 dropped kept
              else FRes.out ⟨some Cause.purging, dropped, kept⟩
            else fetch_loop env a evs (n + 1) dropped kept
          else fetch_loop env a evs n dropped kept
      else FRes.out ⟨some Cause.fetching, dropped, kept⟩
    | FetchEvent.msg m0 =>
      let m := env.trim_from { m0 with decision := Decision.drop }
      if m.size = 0 then fetch_loop env a evs n dropped kept
      else
        match fetch_got env a m with
        | FGRes.err c => FRes.out ⟨some c, dropped, kept⟩
        | FGRes.fatal => FRes.fatal
        | FGRes.success m1 =>
          if env.hasDone then
            match m1.decision with
            | Decision.drop =>
              if env.doneResult Decision.drop then
                if env.conf.purge_after > 0 && env.hasPurge then
                  if n + 1 ≥ env.conf.purge_after then
                    if env.purgeOk then fetch_loop env a evs 0 (dropped + 1) kept
                    else FRes.out ⟨some Cause.purging, dropped + 1, kept⟩
                  else fetch_loop env a evs (n + 1) (dropped + 1) kept
                else fetch_loop env a evs n (dropped + 1) kept
              else FRes.out ⟨some Cause.deleting, dropped + 1, kept⟩
            | Decision.keep =>
              if env.doneResult Decision.keep then
                if env.conf.purge_after > 0 && env.hasPurge then
                  if n + 1 ≥ env.conf.purge_after then
                    if env.purgeOk then fetch_loop env a evs 0 dropped (kept + 1)
                    else FRes.out ⟨some Cause.purging, dropped, kept + 1⟩
                  else fetch_loop env a evs (n + 1) dropped (kept + 1)
                else fetch_loop env a evs n dropped (kept + 1)
              else FRes.out ⟨some Cause.keeping, dropped, kept + 1⟩
            | Decision.dnone => FRes.fatal
          else
            if env.conf.purge_after > 0 && env.hasPurge then
              if n + 1 ≥ env.conf.purge_after then
                if env.purgeOk then fetch_loop env a evs 0 dropped kept
                else FRes.out ⟨some Cause.purging, dropped, kept⟩
              else fetch_loop env a evs (n + 1) dropped kept
            else fetch_loop env a evs n dropped kept

/-- fetch_account from src/child.c: run the fetch loop with all
counters starting at zero. -/
def fetch_account (env : Env) (a : Account) (evs : List FetchEvent) :
    FRes :=
  fetch_loop env a evs 0 0 0

/-- Neutral collaborator environment used by the concrete witnesses and
counterexamples below; individual fields are overridden per scenario. -/
def baseEnv : Env where
  conf := ⟨Decision.dnone, false, false, false, 0, 0, []⟩
  find_users := fun _ => none
  parent := fun _ => ⟨MsgType.done, 0, 0, 0, some []⟩
  inchild := fun _ _ => true
  update_tags := fun ts => ts
  match_actions := fun _ => []
  replacestr := fun s _ => s
  trim_from := fun m => m
  fill_wrapped := fun m => m
  message_id := fun _ => none
  insert_received := fun m => m
  hasDone := false
  doneResult := fun _ => true
  hasPurge := false
  purgeOk := true

/-- Concrete mail used by the round-trip scenarios: 5 bytes, body at
offset 0, no tags. -/
def mail5 : Mail := ⟨5, 0, Decision.drop, [], '\n'⟩

/-- Concrete out-of-process (non-write-back) action. -/
def actOut : Action := ⟨"a", true, DType.other, false, none⟩

/-- Concrete rule scalar fields routing delivery to user 7. -/
def rbUser7 : RuleBase :=
  ⟨[], RuleType.all, none, none, false, false, some [7]⟩

/-- Concrete account for the round-trip scenarios. -/
def acct0 : Account := ⟨"acct", false, false, none⟩

/-- Environment whose parent replies with a nonzero error code and a
size mirror (6) different from the sent size (5). -/
def envErrMismatch : Env :=
  { baseEnv with parent := fun _ => ⟨MsgType.done, 1, 6, 0, some [("x", "y")]⟩ }

/-- Environment whose parent replies with success (error code 0) but a
size mirror (6) different from the sent size (5). -/
def envOkMismatch : Env :=
  { baseEnv with parent := fun _ => ⟨MsgType.done, 0, 6, 0, some [("x", "y")]⟩ }

/-- Environment with discard-oversized enabled and a done hook present
(the hook always succeeds). -/
def envDelBig : Env :=
  { baseEnv with
      conf := ⟨Decision.dnone, false, true, false, 0, 0, []⟩,
      hasDone := true }

/-- Environment with discard-oversized enabled and no done hook. -/
def envDelBigNoDone : Env :=
  { baseEnv with
      conf := ⟨Decision.dnone, false, true, false, 0, 0, []⟩ }

/-- Expression item whose primitive answers true for a 1-byte mail,
false for a 2-byte mail, and errors otherwise; used to exercise the
three evaluator outcomes of an expression rule. -/
def itemBySize : ExprItem :=
  ⟨fun m =>
      if m.size = 1 then MatchResult.mtrue
      else if m.size = 2 then MatchResult.mfalse
      else MatchResult.merror,
    false, Op.opNone⟩

theorem do_expr_go_spec (m : Mail) (l : List ExprItem)
    (hl : ∀ x ∈ l, x.op ≠ Op.opNone) (acc : Bool) :
    do_expr_go m acc l = fold_rest_spec m acc l := by
  induction l generalizing acc with
  | nil => rfl
  | cons ei rest ih =>
    have hei : ei.op ≠ Op.opNone := hl ei (List.mem_cons_self ei rest)
    have hrest : ∀ x ∈ rest, x.op ≠ Op.opNone := fun x hx =>
      hl x (List.mem_cons_of_mem ei hx)
    unfold do_expr_go fold_rest_spec
    cases hr : item_result m ei with
    | none => rfl
    | some cres =>
      cases hop : ei.op with
      | opNone => exact absurd hop hei
      | opOr => simp only [ih hrest]
      | opAnd => simp only [ih hrest]

theorem do_expr_go_error (m : Mail) (l : List ExprItem)
    (he : ∃ x ∈ l, item_result m x = none) (acc : Bool) :
    do_expr_go m acc l = none := by
  induction l generalizing acc with
  | nil => exact absurd he (by simp)
  | cons ei rest ih =>
    unfold do_expr_go
    cases hr : item_result m ei with
    | none => rfl
    | some cres =>
      rcases he with ⟨x, hx, hxe⟩
      rcases List.mem_cons.mp hx with h | h
      · subst h; exact absurd hxe (by simp [hr])
      · exact ih ⟨x, h, hxe⟩ _

/-- C1: for every expression list of length at least one (well formed as
in the data model: the first item's operator is not And — it is ignored
— and every later item states Or or And), do_expr returns the
left-to-right, precedence-free fold of the possibly inverted primitive
results, seeded by the first item's result; and if any primitive
returns an error the whole evaluation aborts with an error. -/
theorem do_expr_is_precedence_free_fold
    (m : Mail) (e : ExprItem) (rest : List ExprItem)
    (hfirst : e.op ≠ Op.opAnd)
    (hrest : ∀ x ∈ rest, x.op ≠ Op.opNone) :
    do_expr m (e :: rest) = expr_fold_spec m (e :: rest) ∧
    ((∃ x ∈ e :: rest, item_result m x = none) →
      do_expr m (e :: rest) = none) := by
  constructor
  · unfold do_expr
    cases hr : item_result m e with
    | none => simp [do_expr_go, expr_fold_spec, hr]
    | some seed =>
      cases hop : e.op with
      | opAnd => exact absurd hop hfirst
      | opNone =>
        simp [do_expr_go, expr_fold_spec, hr, hop, do_expr_go_spec m rest hrest]
      | opOr =>
        simp [do_expr_go, expr_fold_spec, hr, hop, do_expr_go_spec m rest hrest]
  · intro he
    exact do_expr_go_error m (e :: rest) he false

/-- Witness for C1 at a concrete input: a two-item expression
(true, Or false) evaluates through do_expr to the spec fold. -/
theorem do_expr_is_precedence_free_fold_witness :
    (⟨fun _ => MatchResult.mtrue, false, Op.opNone⟩ : ExprItem).op ≠ Op.opAnd ∧
    (∀ x ∈ [(⟨fun _ => MatchResult.mfalse, false, Op.opOr⟩ : ExprItem)],
      x.op ≠ Op.opNone) ∧
    (do_expr ⟨0, -1, Decision.drop, [], ' '⟩
        [⟨fun _ => MatchResult.mtrue, false, Op.opNone⟩,
         ⟨fun _ => MatchResult.mfalse, false, Op.opOr⟩] =
      expr_fold_spec ⟨0, -1, Decision.drop, [], ' '⟩
        [⟨fun _ => MatchResult.mtrue, false, Op.opNone⟩,
         ⟨fun _ => MatchResult.mfalse, false, Op.opOr⟩] ∧
    ((∃ x ∈ [(⟨fun _ => MatchResult.mtrue, false, Op.opNone⟩ : ExprItem),
             ⟨fun _ => MatchResult.mfalse, false, Op.opOr⟩],
        item_result ⟨0, -1, Decision.drop, [], ' '⟩ x = none) →
      do_expr ⟨0, -1, Decision.drop, [], ' '⟩
        [⟨fun _ => MatchResult.mtrue, false, Op.opNone⟩,
         ⟨fun _ => MatchResult.mfalse, false, Op.opOr⟩] = none)) :=
  ⟨by simp, by simp,
   do_expr_is_precedence_free_fold _ _ _ (by simp) (by simp)⟩

/-- C5: the user-identity resolution of do_action follows exactly the
fixed priority chain — rule derive-flag, rule explicit list, action
derive-flag, action explicit list, account derive-flag, account
explicit list — the first applicable provider winning, with the single
configured default identity when none applies (or the applicable
derive provider finds nobody). -/
theorem resolve_users_follows_priority_chain
    (env : Env) (rb : RuleBase) (t : Action) (a : Account) (m : Mail) :
    resolve_users env rb t a m = resolve_users_spec env rb t a m := by
  unfold resolve_users resolve_users_spec user_providers
  cases hrf : rb.find_uid <;> cases hru : rb.users <;>
    cases htf : t.find_uid <;> cases htu : t.users <;>
      cases haf : a.find_uid <;> cases hau : a.users <;>
        simp [List.findSome?_cons, List.findSome?_nil] <;>
          cases henv : env.find_users m <;> simp

/-- C4 counterexample: a non-write-back round trip whose completion
reply carries a nonzero error code while mirroring a size (6) different
from the mail's (5) is not treated as a fatal protocol error — do_action
aborts the action as failed and the process continues. -/
theorem do_action_mismatch_not_fatal_on_error_reply :
    (envErrMismatch.parent
        ⟨"a", 7, 5, 0, add_tag "action" "a" []⟩).size ≠ mail5.size ∧
    actOut.dtype ≠ DType.wrback ∧
    do_action envErrMismatch rbUser7 acct0 mail5 actOut ≠ ARes.fatal := by
  refine ⟨by decide, by decide, by decide⟩

/-- C4 (amended): for a non-write-back out-of-process round trip whose
completion reply signals success (error code 0), a mirrored size or
body offset different from the mail's current one makes do_action
terminate the process abnormally (fatalx: corrupted message) rather
than continue. -/
theorem do_action_mirror_mismatch_fatal
    (env : Env) (rb : RuleBase) (t : Action) (a : Account) (m : Mail)
    (u : Nat) (us : List Nat) (reply : Reply) (tb : Tags)
    (hdel : t.hasDeliver = true)
    (hin : t.dtype ≠ DType.inchild)
    (hwb : t.dtype ≠ DType.wrback)
    (husers : resolve_users env rb t a
        { m with tags := add_tag "action" t.name m.tags } = u :: us)
    (hreply : env.parent ⟨t.name, u, m.size, m.body,
        add_tag "action" t.name m.tags⟩ = reply)
    (hty : reply.rtype = MsgType.done)
    (htb : reply.tagsBuf = some tb)
    (herr : reply.error = 0)
    (hmm : m.size ≠ reply.size ∨ m.body ≠ reply.body) :
    do_action env rb a m t = ARes.fatal := by
  unfold do_action
  simp only [hdel, Bool.not_true, Bool.false_eq_true, if_false, hin,
    ite_false, if_neg hin]
  rw [husers]
  unfold action_loop
  simp only [hreply]
  rcases hmm with h | h <;>
    simp [hty, htb, herr, hwb, h]

/-- Witness for the amended C4 at a concrete input: a success reply
mirroring size 6 for a 5-byte mail makes do_action fatal. -/
theorem do_action_mirror_mismatch_fatal_witness :
    actOut.hasDeliver = true ∧
    actOut.dtype ≠ DType.inchild ∧
    actOut.dtype ≠ DType.wrback ∧
    resolve_users envOkMismatch rbUser7 actOut acct0
      { mail5 with tags := add_tag "action" actOut.name mail5.tags } =
        [7] ∧
    envOkMismatch.parent ⟨actOut.name, 7, mail5.size, mail5.body,
        add_tag "action" actOut.name mail5.tags⟩ =
      ⟨MsgType.done, 0, 6, 0, some [("x", "y")]⟩ ∧
    (⟨MsgType.done, 0, 6, 0, some [("x", "y")]⟩ : Reply).rtype =
      MsgType.done ∧
    (⟨MsgType.done, 0, 6, 0, some [("x", "y")]⟩ : Reply).tagsBuf =
      some [("x", "y")] ∧
    (⟨MsgType.done, 0, 6, 0, some [("x", "y")]⟩ : Reply).error = 0 ∧
    (mail5.size ≠ (⟨MsgType.done, 0, 6, 0, some [("x", "y")]⟩ : Reply).size ∨
      mail5.body ≠ (⟨MsgType.done, 0, 6, 0, some [("x", "y")]⟩ : Reply).body) ∧
    do_action envOkMismatch rbUser7 acct0 mail5 actOut = ARes.fatal :=
  ⟨by decide, by decide, by decide, by decide, by decide, by decide,
   by decide, by decide, by decide,
   do_action_mirror_mismatch_fatal envOkMismatch rbUser7 actOut acct0
     mail5 7 [] ⟨MsgType.done, 0, 6, 0, some [("x", "y")]⟩ [("x", "y")]
     (by decide) (by decide) (by decide) (by decide) (by decide)
     (by decide) (by decide) (by decide) (by decide)⟩

/-- C9: the completion reply's tag set replaces the mail's before the
error code is examined, so a round trip whose reply signals an
execution error fails the action with the privileged side's returned
tags installed in place of the pre-round-trip tag set. -/
theorem do_action_error_reply_keeps_returned_tags
    (env : Env) (rb : RuleBase) (t : Action) (a : Account) (m : Mail)
    (u : Nat) (us : List Nat) (reply : Reply) (tb : Tags)
    (hdel : t.hasDeliver = true)
    (hin : t.dtype ≠ DType.inchild)
    (husers : resolve_users env rb t a
        { m with tags := add_tag "action" t.name m.tags } = u :: us)
    (hreply : env.parent ⟨t.name, u, m.size, m.body,
        add_tag "action" t.name m.tags⟩ = reply)
    (hty : reply.rtype = MsgType.done)
    (htb : reply.tagsBuf = some tb)
    (herr : reply.error ≠ 0) :
    do_action env rb a m t =
      ARes.fail { m with tags := env.update_tags tb } := by
  unfold do_action
  simp only [hdel, Bool.not_true, Bool.false_eq_true, if_false,
    if_neg hin]
  rw [husers]
  unfold action_loop
  simp only [hreply]
  simp [hty, htb, herr]

/-- Witness for C9 at a concrete input: an error reply returning tag
set x=y fails the action and leaves exactly that tag set on the mail. -/
theorem do_action_error_reply_keeps_returned_tags_witness :
    actOut.hasDeliver = true ∧
    actOut.dtype ≠ DType.inchild ∧
    resolve_users envErrMismatch rbUser7 actOut acct0
      { mail5 with tags := add_tag "action" actOut.name mail5.tags } =
        [7] ∧
    envErrMismatch.parent ⟨actOut.name, 7, mail5.size, mail5.body,
        add_tag "action" actOut.name mail5.tags⟩ =
      ⟨MsgType.done, 1, 6, 0, some [("x", "y")]⟩ ∧
    (⟨MsgType.done, 1, 6, 0, some [("x", "y")]⟩ : Reply).rtype =
      MsgType.done ∧
    (⟨MsgType.done, 1, 6, 0, some [("x", "y")]⟩ : Reply).tagsBuf =
      some [("x", "y")] ∧
    (⟨MsgType.done, 1, 6, 0, some [("x", "y")]⟩ : Reply).error ≠ 0 ∧
    do_action envErrMismatch rbUser7 acct0 mail5 actOut =
      ARes.fail { mail5 with tags := envErrMismatch.update_tags [("x", "y")] } :=
  ⟨by decide, by decide, by decide, by decide, by decide, by decide,
   by decide,
   do_action_error_reply_keeps_returned_tags envErrMismatch rbUser7
     actOut acct0 mail5 7 [] ⟨MsgType.done, 1, 6, 0, some [("x", "y")]⟩
     [("x", "y")] (by decide) (by decide) (by decide) (by decide)
     (by decide) (by decide) (by decide)⟩

/-- C10: an action-name template whose expansion matches no configured
action makes do_deliver fail immediately — the remaining templates of
the rule are not processed — and in the rule engine such a delivery
failure aborts the mail with the delivery stage label. -/
theorem do_deliver_unmatched_name_fails
    (env : Env) (rb : RuleBase) (a : Account) (m : Mail)
    (rs : String) (rest : List String)
    (hmatch : env.match_actions (env.replacestr rs m.tags) = [])
    (mctx : MCtx) (rs2 : String) (restT : List String)
    (st fu : Bool) (us : Option (List Nat)) (cs : List Rule)
    (rest2 : List Rule)
    (hmatch2 : env.match_actions
        (env.replacestr rs2 mctx.mail.tags) = []) :
    deliver_loop env rb a (rs :: rest) m = DRes.fail m ∧
    do_rules env mctx
        (Rule.mk ⟨[], RuleType.all, none, some (rs2 :: restT), st, fu, us⟩ cs
          :: rest2) =
      RRes.err Cause.delivery
        { mctx with mail := set_wrapped mctx.mail '\n', matched := true } := by
  constructor
  · unfold deliver_loop
    simp [hmatch]
  · rw [do_rules]
    simp [rule_skips, rule_post, do_deliver, deliver_loop, set_wrapped,
      hmatch2]

/-- Witness for C10 at a concrete input: with no configured actions at
all, a rule carrying action template t fails with a delivery error. -/
theorem do_deliver_unmatched_name_fails_witness :
    baseEnv.match_actions (baseEnv.replacestr "t" mail5.tags) = [] ∧
    baseEnv.match_actions
      (baseEnv.replacestr "t"
        (MCtx.mk acct0 mail5 false false).mail.tags) = [] ∧
    (deliver_loop baseEnv rbUser7 acct0 ["t"] mail5 = DRes.fail mail5 ∧
    do_rules baseEnv ⟨acct0, mail5, false, false⟩
        [Rule.mk ⟨[], RuleType.all, none, some ["t"], false, false, none⟩ []] =
      RRes.err Cause.delivery
        { MCtx.mk acct0 mail5 false false with
            mail := set_wrapped mail5 '\n', matched := true }) :=
  ⟨by decide, by decide,
   do_deliver_unmatched_name_fails baseEnv rbUser7 acct0 mail5 "t" []
     (by decide) ⟨acct0, mail5, false, false⟩ "t" [] false false none [] []
     (by decide)⟩

/-- C8: a rule with a non-empty account filter none of whose patterns
matches the current account name is skipped entirely — no expression
evaluation, tagging, delivery or nested recursion happens and the
engine continues with the following rules on an unchanged context. -/
theorem do_rules_account_filter_skips
    (env : Env) (mctx : MCtx) (rb : RuleBase) (cs rest : List Rule)
    (hne : rb.accounts ≠ [])
    (hnm : ∀ p ∈ rb.accounts, name_match p mctx.account.name = false) :
    do_rules env mctx (Rule.mk rb cs :: rest) = do_rules env mctx rest := by
  rw [do_rules]
  have hskip : rule_skips rb mctx.account.name = true := by
    unfold rule_skips
    rw [Bool.and_eq_true, List.all_eq_true]
    constructor
    · cases h : rb.accounts with
      | nil => exact absurd h hne
      | cons p ps => simp [List.isEmpty]
    · intro x hx
      simp [hnm x hx]
  simp [hskip]

/-- Witness for C8 at a concrete input: a rule with filter alice is
skipped for account bob. -/
theorem do_rules_account_filter_skips_witness :
    (RuleBase.mk ["alice"] RuleType.all none none false false none).accounts
        ≠ [] ∧
    (∀ p ∈ (RuleBase.mk ["alice"] RuleType.all none none false false
        none).accounts,
      name_match p
        (MCtx.mk ⟨"bob", false, false, none⟩ mail5 false false).account.name
        = false) ∧
    do_rules baseEnv ⟨⟨"bob", false, false, none⟩, mail5, false, false⟩
        [Rule.mk ⟨["alice"], RuleType.all, none, none, false, false, none⟩ []] =
      do_rules baseEnv ⟨⟨"bob", false, false, none⟩, mail5, false, false⟩ [] :=
  ⟨by decide, by decide,
   do_rules_account_filter_skips baseEnv
     ⟨⟨"bob", false, false, none⟩, mail5, false, false⟩
     ⟨["alice"], RuleType.all, none, none, false, false, none⟩ [] []
     (by decide) (by decide)⟩

/-- C2: a stop rule ends its own list immediately with the stopped flag
set, whatever rules follow it; a rule whose nested list ends with the
stopped flag set makes the enclosing list return right after the
recursion, skipping the rule's own siblings; and a nested list that
exhausts without any stop leaves the stopped flag unset and the parent
continues with the rule's own siblings. -/
theorem do_rules_stop_propagation
    (env : Env) (mctx : MCtx) (rest : List Rule)
    (cs : List Rule) (m1 : MCtx) (cs2 : List Rule) (m2 : MCtx)
    (hcs : cs ≠ [])
    (h1 : do_rules env { mctx with mail := set_wrapped mctx.mail '\n' } cs =
      RRes.ok m1)
    (h1s : m1.stopped = true)
    (h2 : do_rules env { mctx with mail := set_wrapped mctx.mail '\n' } cs2 =
      RRes.ok m2)
    (h2s : m2.stopped = false) :
    do_rules env mctx
        (Rule.mk ⟨[], RuleType.all, none, none, true, false, none⟩ []
          :: rest) =
      RRes.ok
        { mctx with mail := set_wrapped mctx.mail '\n', stopped := true } ∧
    do_rules env mctx
        (Rule.mk ⟨[], RuleType.all, none, none, false, false, none⟩ cs
          :: rest) =
      RRes.ok m1 ∧
    do_rules env mctx
        (Rule.mk ⟨[], RuleType.all, none, none, false, false, none⟩ cs2
          :: rest) =
      do_rules env m2 rest := by
  refine ⟨?_, ?_, ?_⟩
  · rw [do_rules]
    simp [rule_skips, rule_post]
  · obtain ⟨c, cs', rfl⟩ := List.exists_cons_of_ne_nil hcs
    rw [do_rules]
    simp [rule_skips, rule_post, h1, h1s]
  · cases cs2 with
    | nil =>
      rw [do_rules] at h2
      simp only [RRes.ok.injEq] at h2
      rw [do_rules]
      simp [rule_skips, rule_post, ← h2]
    | cons c cs' =>
      rw [do_rules]
      simp [rule_skips, rule_post, h2, h2s]

/-- Witness for C2 at concrete inputs: a nested stop rule stops the
enclosing list, and an empty nested list lets it continue. -/
theorem do_rules_stop_propagation_witness :
    ([Rule.mk ⟨[], RuleType.all, none, none, true, false, none⟩ []] :
        List Rule) ≠ [] ∧
    do_rules baseEnv
        { MCtx.mk acct0 mail5 false false with
            mail := set_wrapped mail5 '\n' }
        [Rule.mk ⟨[], RuleType.all, none, none, true, false, none⟩ []] =
      RRes.ok ⟨acct0, set_wrapped mail5 '\n', false, true⟩ ∧
    (MCtx.mk acct0 (set_wrapped mail5 '\n') false true).stopped = true ∧
    do_rules baseEnv
        { MCtx.mk acct0 mail5 false false with
            mail := set_wrapped mail5 '\n' }
        ([] : List Rule) =
      RRes.ok ⟨acct0, set_wrapped mail5 '\n', false, false⟩ ∧
    (MCtx.mk acct0 (set_wrapped mail5 '\n') false false).stopped = false ∧
    (do_rules baseEnv (MCtx.mk acct0 mail5 false false)
        (Rule.mk ⟨[], RuleType.all, none, none, true, false, none⟩ []
          :: []) =
      RRes.ok
        { MCtx.mk acct0 mail5 false false with
            mail := set_wrapped mail5 '\n', stopped := true } ∧
    do_rules baseEnv (MCtx.mk acct0 mail5 false false)
        (Rule.mk ⟨[], RuleType.all, none, none, false, false, none⟩
            [Rule.mk ⟨[], RuleType.all, none, none, true, false, none⟩ []]
          :: []) =
      RRes.ok ⟨acct0, set_wrapped mail5 '\n', false, true⟩ ∧
    do_rules baseEnv (MCtx.mk acct0 mail5 false false)
        (Rule.mk ⟨[], RuleType.all, none, none, false, false, none⟩ []
          :: []) =
      do_rules baseEnv ⟨acct0, set_wrapped mail5 '\n', false, false⟩ []) := by
  refine ⟨List.cons_ne_nil _ _, ?h1, by decide, ?h2, by decide, ?main⟩
  case h1 => rw [do_rules]; simp [rule_skips, rule_post, set_wrapped]
  case h2 => rw [do_rules]
  case main =>
    exact do_rules_stop_propagation baseEnv
      (MCtx.mk acct0 mail5 false false) []
      [Rule.mk ⟨[], RuleType.all, none, none, true, false, none⟩ []]
      ⟨acct0, set_wrapped mail5 '\n', false, true⟩
      [] ⟨acct0, set_wrapped mail5 '\n', false, false⟩
      (List.cons_ne_nil _ _)
      (by rw [do_rules]; simp [rule_skips, rule_post, set_wrapped])
      (by decide)
      (by rw [do_rules])
      (by decide)

/-- C6 counterexample: an expression rule whose evaluator returns
false leaves the wrapped lines space-joined after do_rules — they are
not restored to newline form on a no-match outcome. -/
theorem do_rules_wrapped_not_restored_on_no_match :
    do_rules baseEnv ⟨acct0, mail5, false, false⟩
        [Rule.mk
          ⟨[], RuleType.expr [⟨fun _ => MatchResult.mfalse, false, Op.opNone⟩],
            none, none, false, false, none⟩ []] =
      RRes.ok ⟨acct0, set_wrapped mail5 ' ', false, false⟩ ∧
    (set_wrapped mail5 ' ').wrap ≠ '\n' := by
  constructor
  · have hfe : do_expr (set_wrapped mail5 ' ')
        [⟨fun _ => MatchResult.mfalse, false, Op.opNone⟩] = some false := by
      decide
    rw [do_rules]
    simp [rule_skips, hfe]
    rw [do_rules]
  · decide

/-- C6 (amended): for an expression rule do_rules joins the wrapped
header lines with a space before running the evaluator, but restores
them to newline form only when the expression matches (before tagging
and delivery); on a false result the rule is skipped with the lines
still space-joined, and on an evaluator error the engine aborts with a
matching failure, the lines still space-joined. -/
theorem do_rules_wrapped_joined_restored_only_on_match
    (env : Env) (items : List ExprItem) (rest : List Rule)
    (mctxT mctxF mctxE : MCtx)
    (hT : do_expr (set_wrapped mctxT.mail ' ') items = some true)
    (hF : do_expr (set_wrapped mctxF.mail ' ') items = some false)
    (hE : do_expr (set_wrapped mctxE.mail ' ') items = none) :
    do_rules env mctxT
        (Rule.mk ⟨[], RuleType.expr items, none, none, false, false, none⟩ []
          :: rest) =
      do_rules env { mctxT with mail := set_wrapped mctxT.mail '\n' } rest ∧
    do_rules env mctxF
        (Rule.mk ⟨[], RuleType.expr items, none, none, false, false, none⟩ []
          :: rest) =
      do_rules env { mctxF with mail := set_wrapped mctxF.mail ' ' } rest ∧
    do_rules env mctxE
        (Rule.mk ⟨[], RuleType.expr items, none, none, false, false, none⟩ []
          :: rest) =
      RRes.err Cause.matching
        { mctxE with mail := set_wrapped mctxE.mail ' ' } := by
  refine ⟨?_, ?_, ?_⟩
  · rw [do_rules]
    simp only [rule_skips, rule_post, hT]
    simp [rule_post, set_wrapped]
  · rw [do_rules]
    simp only [rule_skips, hF]
    simp
  · rw [do_rules]
    simp only [rule_skips, hE]
    simp

/-- Witness for the amended C6 at concrete inputs: the same expression
rule exercised on mails of sizes 1, 2 and 3 matches, fails to match,
and errors respectively. -/
theorem do_rules_wrapped_joined_restored_only_on_match_witness :
    do_expr
        (set_wrapped (MCtx.mk acct0 ⟨1, 0, Decision.drop, [], '\n'⟩ false
          false).mail ' ') [itemBySize] = some true ∧
    do_expr
        (set_wrapped (MCtx.mk acct0 ⟨2, 0, Decision.drop, [], '\n'⟩ false
          false).mail ' ') [itemBySize] = some false ∧
    do_expr
        (set_wrapped (MCtx.mk acct0 ⟨3, 0, Decision.drop, [], '\n'⟩ false
          false).mail ' ') [itemBySize] = none ∧
    (do_rules baseEnv (MCtx.mk acct0 ⟨1, 0, Decision.drop, [], '\n'⟩ false false)
        (Rule.mk ⟨[], RuleType.expr [itemBySize], none, none, false, false,
            none⟩ [] :: []) =
      do_rules baseEnv
        { MCtx.mk acct0 ⟨1, 0, Decision.drop, [], '\n'⟩ false false with
            mail := set_wrapped ⟨1, 0, Decision.drop, [], '\n'⟩ '\n' } [] ∧
    do_rules baseEnv (MCtx.mk acct0 ⟨2, 0, Decision.drop, [], '\n'⟩ false false)
        (Rule.mk ⟨[], RuleType.expr [itemBySize], none, none, false, false,
            none⟩ [] :: []) =
      do_rules baseEnv
        { MCtx.mk acct0 ⟨2, 0, Decision.drop, [], '\n'⟩ false false with
            mail := set_wrapped ⟨2, 0, Decision.drop, [], '\n'⟩ ' ' } [] ∧
    do_rules baseEnv (MCtx.mk acct0 ⟨3, 0, Decision.drop, [], '\n'⟩ false false)
        (Rule.mk ⟨[], RuleType.expr [itemBySize], none, none, false, false,
            none⟩ [] :: []) =
      RRes.err Cause.matching
        { MCtx.mk acct0 ⟨3, 0, Decision.drop, [], '\n'⟩ false false with
            mail := set_wrapped ⟨3, 0, Decision.drop, [], '\n'⟩ ' ' }) :=
  ⟨by decide, by decide, by decide,
   do_rules_wrapped_joined_restored_only_on_match baseEnv [itemBySize] []
     (MCtx.mk acct0 ⟨1, 0, Decision.drop, [], '\n'⟩ false false)
     (MCtx.mk acct0 ⟨2, 0, Decision.drop, [], '\n'⟩ false false)
     (MCtx.mk acct0 ⟨3, 0, Decision.drop, [], '\n'⟩ false false)
     (by decide) (by decide) (by decide)⟩

/-- C3: when the rule engine returns with the stopped flag unset the
implicit end-of-ruleset policy decides (None warns and keeps, Keep
keeps, Drop drops), and the global keep-all option or the per-account
keep flag forces keep regardless of the implicit policy or of any
decision the ruleset left on the mail. -/
theorem fetch_got_implicit_policy_and_keep_override
    (env : Env) (a : Account) (m : Mail) (mc : MCtx)
    (hrun : do_rules env ⟨a, fetch_prep env m, false, false⟩
      env.conf.rules = RRes.ok mc) :
    (mc.stopped = false → (env.conf.keep_all || a.keep) = false →
      fetch_got env a m =
        FGRes.success
          { mc.mail with decision := impl_decision env.conf.impl_act }) ∧
    ((env.conf.keep_all || a.keep) = true →
      fetch_got env a m =
        FGRes.success { mc.mail with decision := Decision.keep }) := by
  constructor
  · intro hs hk
    simp only [fetch_got]
    rw [hrun]
    simp [hs, hk]
  · intro hk
    simp only [fetch_got]
    rw [hrun]
    cases hs : mc.stopped <;> simp [hk, hs]

/-- Witness for C3 at a concrete input: an empty ruleset with implicit
policy None keeps the mail. -/
theorem fetch_got_implicit_policy_and_keep_override_witness :
    do_rules baseEnv ⟨acct0, fetch_prep baseEnv mail5, false, false⟩
        baseEnv.conf.rules =
      RRes.ok ⟨acct0, fetch_prep baseEnv mail5, false, false⟩ ∧
    ((MCtx.mk acct0 (fetch_prep baseEnv mail5) false false).stopped = false →
      (baseEnv.conf.keep_all || acct0.keep) = false →
      fetch_got baseEnv acct0 mail5 =
        FGRes.success
          { (MCtx.mk acct0 (fetch_prep baseEnv mail5) false false).mail with
              decision := impl_decision baseEnv.conf.impl_act }) ∧
    ((baseEnv.conf.keep_all || acct0.keep) = true →
      fetch_got baseEnv acct0 mail5 =
        FGRes.success
          { (MCtx.mk acct0 (fetch_prep baseEnv mail5) false false).mail with
              decision := Decision.keep }) :=
  ⟨by rw [show baseEnv.conf.rules = [] from rfl, do_rules],
   (fetch_got_implicit_policy_and_keep_override baseEnv acct0 mail5
     ⟨acct0, fetch_prep baseEnv mail5, false, false⟩
     (by rw [show baseEnv.conf.rules = [] from rfl, do_rules])).1,
   (fetch_got_implicit_policy_and_keep_override baseEnv acct0 mail5
     ⟨acct0, fetch_prep baseEnv mail5, false, false⟩
     (by rw [show baseEnv.conf.rules = [] from rfl, do_rules])).2⟩

/-- C7 counterexample: with discard-oversized enabled and a backend
done hook present, an oversized message is reported to the hook as a
drop and counted in the dropped count (1), not left uncounted. -/
theorem fetch_account_oversize_counted_as_dropped :
    fetch_account envDelBig acct0 [FetchEvent.oversize mail5] =
      FRes.out ⟨none, 1, 0⟩ := by
  decide

/-- C7 (amended): with discard-oversized enabled the fetch loop
continues to the next item after an oversized message without
aborting; when the backend has a done hook that succeeds, the item is
reported as a drop and counted in the dropped count (the kept count is
unchanged), and without a done hook it is counted in neither count. -/
theorem fetch_loop_oversize_continues
    (env env2 : Env) (a a2 : Account) (m m2 : Mail)
    (evs evs2 : List FetchEvent) (n n2 dropped dropped2 kept kept2 : Nat)
    (hdb : env.conf.del_big = true)
    (hdone : env.hasDone = true)
    (hok : env.doneResult Decision.drop = true)
    (hpa : env.conf.purge_after = 0)
    (hdb2 : env2.conf.del_big = true)
    (hdone2 : env2.hasDone = false)
    (hpa2 : env2.conf.purge_after = 0) :
    fetch_loop env a (FetchEvent.oversize m :: evs) n dropped kept =
      fetch_loop env a evs n (dropped + 1) kept ∧
    fetch_loop env2 a2 (FetchEvent.oversize m2 :: evs2) n2 dropped2 kept2 =
      fetch_loop env2 a2 evs2 n2 dropped2 kept2 := by
  constructor
  · rw [fetch_loop]
    simp [hdb, hdone, hok, hpa]
  · rw [fetch_loop]
    simp [hdb2, hdone2, hpa2]

/-- Witness for the amended C7 at concrete inputs: one oversized item
with a done hook increments the dropped count; without a done hook it
increments nothing. -/
theorem fetch_loop_oversize_continues_witness :
    envDelBig.conf.del_big = true ∧
    envDelBig.hasDone = true ∧
    envDelBig.doneResult Decision.drop = true ∧
    envDelBig.conf.purge_after = 0 ∧
    envDelBigNoDone.conf.del_big = true ∧
    envDelBigNoDone.hasDone = false ∧
    envDelBigNoDone.conf.purge_after = 0 ∧
    (fetch_loop envDelBig acct0 (FetchEvent.oversize mail5 :: []) 0 0 0 =
      fetch_loop envDelBig acct0 [] 0 (0 + 1) 0 ∧
    fetch_loop envDelBigNoDone acct0 (FetchEvent.oversize mail5 :: []) 0 0 0 =
      fetch_loop envDelBigNoDone acct0 [] 0 0 0) :=
  ⟨by decide, by decide, by decide, by decide, by decide, by decide,
   by decide,
   fetch_loop_oversize_continues envDelBig envDelBigNoDone acct0 acct0
     mail5 mail5 [] [] 0 0 0 0 0 0 (by decide) (by decide) (by decide)
     (by decide) (by decide) (by decide) (by decide)⟩

end Fdm
